import Mathlib

/-!
Verification development for the resolute-jira adapter.

Shallow embedding of:
- the Jira data model and the record normalizer `issueToDocument` (src/issues.go),
- the response handling of the REST client `SearchJQLWithParams` / `GetIssue`
  (src/client.go),
- the pagination fetcher closure shared by `FetchAllIssues` and `SearchAllJQL`
  (src/issues.go), together with the cursor pagination engine that drives it.
  The engine itself (`core.PaginateWithConfig`) is not part of this repository's
  sources, so it is modelled from the spec (section 4.1).

Machine integers are modelled as `Int`/`Nat` (overflow is irrelevant to the
claims here); fallible Go code returning `(T, error)` is modelled with
`Except String T` or with an explicit `T × Option String` pair; the HTTP
transport and the JSON decoder are external collaborators and appear as
explicit parameters (a received response, a decode function).
-/

namespace ResoluteJira

/-- Jira user (client.go `User`): display name, e-mail address, account id. -/
structure User where
  displayName : String
  emailAddress : String
  accountID : String
  deriving DecidableEq

/-- Single issue comment (client.go `Comment`). -/
structure Comment where
  id : String
  body : String
  author : User
  created : String
  updated : String
  deriving DecidableEq

/-- Comments container (client.go `Comments`): total plus the ordered list. -/
structure Comments where
  total : Int
  comments : List Comment
  deriving DecidableEq

/-- Issue status (client.go `Status`). -/
structure Status where
  name : String
  id : String
  deriving DecidableEq

/-- Issue type (client.go `IssueType`). -/
structure IssueType where
  name : String
  id : String
  deriving DecidableEq

/-- Jira project (client.go `Project`). -/
structure Project where
  key : String
  name : String
  id : String
  deriving DecidableEq

/-- Issue priority (client.go `Priority`). -/
structure Priority where
  name : String
  id : String
  deriving DecidableEq

/-- Fields of a Jira issue (client.go `IssueFields`). Go pointer fields
(`*Priority`, `*User`, `*Comments`) are modelled as `Option`: `none` is `nil`. -/
structure IssueFields where
  summary : String
  description : String
  status : Status
  issueType : IssueType
  project : Project
  created : String
  updated : String
  labels : List String
  priority : Option Priority
  assignee : Option User
  reporter : Option User
  comments : Option Comments
  deriving DecidableEq

/-- A Jira issue (client.go `Issue`). -/
structure Issue where
  id : String
  key : String
  self : String
  fields : IssueFields
  deriving DecidableEq

/-- JQL search result (client.go `SearchResult`). -/
structure SearchResult where
  startAt : Int
  maxResults : Int
  total : Int
  issues : List Issue
  deriving DecidableEq

/-- Broken-down timestamp: model of Go `time.Time` restricted to the components
the fixed layout of issues.go line 173 can produce. `tzMinutes` is the numeric
zone offset in minutes (signed). -/
structure Timestamp where
  year : Nat
  month : Nat
  day : Nat
  hour : Nat
  minute : Nat
  second : Nat
  millis : Nat
  tzMinutes : Int
  deriving DecidableEq

/-- Zero value of Go `time.Time`: January 1 of year 1, 00:00:00 UTC. -/
def Timestamp.zero : Timestamp :=
  { year := 1, month := 1, day := 1, hour := 0, minute := 0, second := 0,
    millis := 0, tzMinutes := 0 }

/-- Numeric value of a decimal digit character. -/
def digitVal (c : Char) : Nat := c.toNat - 48

/-- Decimal value of a list of digit characters (most significant first). -/
def decVal (l : List Char) : Nat := l.foldl (fun a c => a * 10 + digitVal c) 0

/-- Number of days in a month, with Gregorian leap years (as Go `time` checks
when validating a parsed date). -/
def daysInMonth (year month : Nat) : Nat :=
  if month = 2 then
    if year % 4 = 0 ∧ (year % 100 ≠ 0 ∨ year % 400 = 0) then 29 else 28
  else if month = 4 ∨ month = 6 ∨ month = 9 ∨ month = 11 then 30
  else 31

/-- Literal layout character: the next input character must match it
(Go `time.Parse` requires each literal layout chunk as an exact prefix). -/
def lit (c : Char) : List Char → Option (List Char)
  | x :: rest => if x = c then some rest else none
  | [] => none

/-- Go `time.getnum` with `fixed = true`: exactly two digit characters. -/
def getnum2 : List Char → Option (Nat × List Char)
  | c1 :: c2 :: rest =>
      if c1.isDigit ∧ c2.isDigit then some (decVal [c1, c2], rest) else none
  | _ => none

/-- Go `time.getnum` with `fixed = false` (used for the `stdHour` element
`15`): one digit, extended to two when the following character is also a
digit. -/
def getnum1or2 : List Char → Option (Nat × List Char)
  | c1 :: c2 :: rest =>
      if c1.isDigit then
        if c2.isDigit then some (decVal [c1, c2], rest)
        else some (digitVal c1, c2 :: rest)
      else none
  | [c1] => if c1.isDigit then some (digitVal c1, []) else none
  | [] => none

/-- Go `stdLongYear`: at least four characters, the first a digit, and the
four-character slice must go through `atoi`, so all four are digits. -/
def parseYear4 : List Char → Option (Nat × List Char)
  | a1 :: a2 :: a3 :: a4 :: rest =>
      if a1.isDigit ∧ a2.isDigit ∧ a3.isDigit ∧ a4.isDigit then
        some (decVal [a1, a2, a3, a4], rest)
      else none
  | _ => none

/-- Three fraction characters through the time package's sign-accepting
internal `atoi`, kept only when the value is nonnegative (as
`parseNanoseconds` checks): three digits, or a sign followed by two digits
where a minus sign is only allowed on a zero value. -/
def fracAtoi3 (c1 c2 c3 : Char) : Option Nat :=
  if c1.isDigit ∧ c2.isDigit ∧ c3.isDigit then some (decVal [c1, c2, c3])
  else if (c1 = '+' ∨ c1 = '-') ∧ c2.isDigit ∧ c3.isDigit then
    (if c1 = '-' ∧ decVal [c2, c3] ≠ 0 then none else some (decVal [c2, c3]))
  else none

/-- Go `stdFracSecond0` for the layout element `.000` (`parseNanoseconds` with
four bytes): a period or a comma (commas are accepted since Go 1.17) followed
by three characters accepted by `fracAtoi3`. -/
def parseFrac3 : List Char → Option (Nat × List Char)
  | c0 :: c1 :: c2 :: c3 :: rest =>
      if c0 = '.' ∨ c0 = ',' then
        match fracAtoi3 c1 c2 c3 with
        | some n => some (n, rest)
        | none => none
      else none
  | _ => none

/-- Go `stdNumTZ` for the layout element `-0700`: a sign that must be `+` or
`-` followed by two fixed two-digit numbers; the stdlib applies no range check
to the numeric zone. The result is the offset in minutes, signed. -/
def parseNumTZ : List Char → Option (Int × List Char)
  | sg :: z1 :: z2 :: z3 :: z4 :: rest =>
      if z1.isDigit ∧ z2.isDigit ∧ z3.isDigit ∧ z4.isDigit then
        if sg = '+' then
          some (((decVal [z1, z2] * 60 + decVal [z3, z4] : Nat) : Int), rest)
        else if sg = '-' then
          some (-((decVal [z1, z2] * 60 + decVal [z3, z4] : Nat) : Int), rest)
        else none
      else none
  | _ => none

/-- Clock part of the layout, `15:04:05`: an hour of one or two digits
(`stdHour` is parsed non-fixed, so `9:30:00` is accepted), fixed two-digit
minute and second, range checked as in the stdlib (hour below 24, minute and
second below 60). -/
def parseClock (l : List Char) : Option (Nat × Nat × Nat × List Char) :=
  match getnum1or2 l with
  | none => none
  | some (hour, r1) =>
    if hour ≤ 23 then
      match lit ':' r1 with
      | none => none
      | some r2 =>
        match getnum2 r2 with
        | none => none
        | some (minute, r3) =>
          if minute ≤ 59 then
            match lit ':' r3 with
            | none => none
            | some r4 =>
              match getnum2 r4 with
              | none => none
              | some (second, r5) =>
                if second ≤ 59 then some (hour, minute, second, r5) else none
          else none
    else none

/-- Date part of the layout, `2006-01-02`: a four-digit year, fixed two-digit
month and day, with the stdlib's month range check during the scan (the day is
checked against the month length only after the whole value is parsed). -/
def parseDatePart (l : List Char) : Option (Nat × Nat × Nat × List Char) :=
  match parseYear4 l with
  | none => none
  | some (year, r1) =>
    match lit '-' r1 with
    | none => none
    | some r2 =>
      match getnum2 r2 with
      | none => none
      | some (month, r3) =>
        if 1 ≤ month ∧ month ≤ 12 then
          match lit '-' r3 with
          | none => none
          | some r4 =>
            match getnum2 r4 with
            | none => none
            | some (day, r5) => some (year, month, day, r5)
        else none

/-- Model of Go `time.Parse` specialized to the fixed layout
`2006-01-02T15:04:05.000-0700` used at issues.go line 173, following the
stdlib's element semantics chunk by chunk: a four-digit year (`stdLongYear`);
fixed two-digit month, day, minute and second (`getnum` fixed); an hour of one
or two digits (`stdHour` is parsed non-fixed); a fractional second introduced
by a period or a comma whose three characters pass the package's sign-accepting
`atoi` and must be nonnegative; a sign plus four digits for the numeric zone;
no text may remain after the zone; month, hour, minute and second are range
checked during the scan and the day is checked afterwards against the month
length with Gregorian leap years. On failure Go returns the zero `time.Time`
together with an error, and issues.go discards the error, so failure is
modelled as `none`. -/
def parseGoTime (s : String) : Option Timestamp :=
  match parseDatePart s.toList with
  | none => none
  | some (year, month, day, r1) =>
    match lit 'T' r1 with
    | none => none
    | some r2 =>
      match parseClock r2 with
      | none => none
      | some (hour, minute, second, r3) =>
        match parseFrac3 r3 with
        | none => none
        | some (ms, r4) =>
          match parseNumTZ r4 with
          | none => none
          | some (tz, r5) =>
            if r5 = [] ∧ 1 ≤ day ∧ day ≤ daysInMonth year month then
              some { year := year, month := month, day := day, hour := hour,
                     minute := minute, second := second, millis := ms,
                     tzMinutes := tz }
            else none

/-- Normalized document (the `transform.Document` shape the adapter produces).
The Go `map[string]string` metadata is modelled as an association list with
pairwise distinct keys, looked up with `lookupKey`. -/
structure Document where
  id : String
  content : String
  title : String
  source : String
  url : String
  metadata : List (String × String)
  updatedAt : Timestamp
  deriving DecidableEq

/-- Lookup in the association-list model of a Go string map. -/
def lookupKey (m : List (String × String)) (k : String) : Option String :=
  match m with
  | [] => none
  | p :: rest => if p.1 = k then some p.2 else lookupKey rest k

/-- Record normalizer `issueToDocument` (src/issues.go lines 158-200),
translated clause by clause: content accumulation (summary, optional
description, comment lines), timestamp parse with silent degrade, metadata
map with required keys and conditionally added priority/assignee. -/
def issueToDocument (issue : Issue) : Document :=
  let content := issue.fields.summary
  let content :=
    if issue.fields.description ≠ ("") then
      content ++ "\n\n" ++ issue.fields.description
    else content
  let content :=
    match issue.fields.comments with
    | some cs =>
        cs.comments.foldl
          (fun acc comment =>
            acc ++ "\n\n[Comment by " ++ comment.author.displayName ++ "]: " ++
              comment.body)
          content
    | none => content
  let updatedAt :=
    if issue.fields.updated ≠ ("") then
      match parseGoTime issue.fields.updated with
      | some t => t
      | none => Timestamp.zero
    else Timestamp.zero
  let metadata :=
    [("issue_key", issue.key), ("project", issue.fields.project.key),
     ("status", issue.fields.status.name),
     ("issue_type", issue.fields.issueType.name)]
  let metadata :=
    match issue.fields.priority with
    | some p => metadata ++ [("priority", p.name)]
    | none => metadata
  let metadata :=
    match issue.fields.assignee with
    | some a => metadata ++ [("assignee", a.displayName)]
    | none => metadata
  { id := issue.key, content := content, title := issue.fields.summary,
    source := "jira", url := issue.self, metadata := metadata,
    updatedAt := updatedAt }

/-- Expected text of the comment section of a document body: one
`"\n\n[Comment by <author>]: <body>"` segment per comment, in order. -/
def commentsText : List Comment → String
  | [] => ""
  | c :: rest =>
      "\n\n[Comment by " ++ c.author.displayName ++ "]: " ++ c.body ++
        commentsText rest

/-- Comment list of an issue; `none` (Go `nil`) contributes no comments. -/
def commentList (issue : Issue) : List Comment :=
  match issue.fields.comments with
  | some cs => cs.comments
  | none => []

/-- HTTP response as received by the client: status code and body text. The
transport itself (request construction, execution) is a collaborator outside
the properties stated here. -/
structure HTTPResponse where
  statusCode : Nat
  body : String
  deriving DecidableEq

/-- Error message the client builds for a non-success response
(client.go lines 166 and 196): carries the status code and the body text. -/
def apiErrorMessage (resp : HTTPResponse) : String :=
  "jira API error: status=" ++ toString resp.statusCode ++ " body=" ++ resp.body

/-- Response handling of `SearchJQLWithParams` (client.go lines 158-174); the
JSON decoder is a collaborator, abstracted as a decode function on the body. -/
def searchJQLWithParamsHandle (resp : HTTPResponse)
    (decode : String → Except String SearchResult) :
    Except String SearchResult :=
  if resp.statusCode ≠ 200 then .error (apiErrorMessage resp)
  else
    match decode resp.body with
    | .ok r => .ok r
    | .error e => .error ("decode response: " ++ e)

/-- Response handling of `GetIssue` (client.go lines 178-205), same shape as
`searchJQLWithParamsHandle` but decoding a single issue. -/
def getIssueHandle (resp : HTTPResponse)
    (decode : String → Except String Issue) : Except String Issue :=
  if resp.statusCode ≠ 200 then .error (apiErrorMessage resp)
  else
    match decode resp.body with
    | .ok issue => .ok issue
    | .error e => .error ("decode response: " ++ e)

/-- Output of `FetchIssueActivity` (issues.go lines 81-84). -/
structure FetchIssueOutput where
  document : Document
  found : Bool
  deriving DecidableEq

/-- Body of `FetchIssueActivity` (issues.go lines 87-103) once the `GetIssue`
call is resolved to a received response: a `GetIssue` error is wrapped with the
`get issue` label and returned; on success the issue is normalized and the
output carries `found := true`. -/
def fetchIssueActivity (resp : HTTPResponse)
    (decode : String → Except String Issue) : Except String FetchIssueOutput :=
  match getIssueHandle resp decode with
  | .error e => .error ("get issue: " ++ e)
  | .ok issue => .ok { document := issueToDocument issue, found := true }

/-- Substring containment, used to state that an error message carries a given
piece of text verbatim. -/
def containsStr (s sub : String) : Prop := ∃ pre post, s = pre ++ sub ++ post

/-- Decimal digits of a positive number, most significant first, prepended to
an accumulator (the usual divide-by-ten construction). -/
def natDigitsAux : Nat → List Char → List Char
  | 0, acc => acc
  | n + 1, acc =>
      natDigitsAux ((n + 1) / 10) (Char.ofNat (48 + (n + 1) % 10) :: acc)
decreasing_by exact Nat.div_lt_self (Nat.succ_pos n) (by omega)

/-- Number of decimal digits produced by `natDigitsAux` (0 for 0). -/
def numDigits : Nat → Nat
  | 0 => 0
  | n + 1 => numDigits ((n + 1) / 10) + 1
decreasing_by exact Nat.div_lt_self (Nat.succ_pos n) (by omega)

/-- Decimal representation of a natural number as a character list. -/
def natToDecimal (n : Nat) : List Char :=
  if n = 0 then ['0'] else natDigitsAux n []

/-- Model of Go `strconv.Itoa`: decimal representation of an integer. -/
def itoa (n : Int) : String :=
  if n < 0 then String.mk ('-' :: natToDecimal (-n).toNat)
  else String.mk (natToDecimal n.toNat)

/-- Value of a non-empty all-digit character list, `none` otherwise. -/
def digitsToNat? (l : List Char) : Option Nat :=
  if l ≠ [] ∧ l.all Char.isDigit then some (decVal l) else none

/-- Model of Go `strconv.Atoi`: an optional sign followed by decimal digits;
any other string is a syntax error carrying Go's message (the 64-bit range
error is not modelled: the offsets involved never approach it). -/
def atoi (s : String) : Except String Int :=
  match s.toList with
  | [] => .error ("strconv.Atoi: parsing \"" ++ s ++ "\": invalid syntax")
  | c :: rest =>
    if c = '-' then
      match digitsToNat? rest with
      | some n => .ok (-(n : Int))
      | none => .error ("strconv.Atoi: parsing \"" ++ s ++ "\": invalid syntax")
    else if c = '+' then
      match digitsToNat? rest with
      | some n => .ok (n : Int)
      | none => .error ("strconv.Atoi: parsing \"" ++ s ++ "\": invalid syntax")
    else
      match digitsToNat? (c :: rest) with
      | some n => .ok (n : Int)
      | none => .error ("strconv.Atoi: parsing \"" ++ s ++ "\": invalid syntax")

/-- Cursor decoding step of the fetcher closures (issues.go lines 251-258 and
310-317): the empty cursor means start offset 0, otherwise `strconv.Atoi`. -/
def parseStart (cursor : String) : Except String Int :=
  if cursor = ("") then .ok 0 else atoi cursor

/-- One page of a paginated fetch: `core.PageResult[Issue]` as produced by the
fetcher closures. -/
structure PageResult where
  items : List Issue
  nextCursor : String
  hasMore : Bool
  deriving DecidableEq

/-- Zero value of `core.PageResult[Issue]`, returned by the fetchers together
with an error. -/
def zeroPage : PageResult := { items := [], nextCursor := "", hasMore := false }

/-- Pagination fetcher closure shared by `FetchAllIssues` (issues.go lines
238-286) and `SearchAllJQL` (issues.go lines 303-345); after the JQL string is
fixed the two bodies are identical. The HTTP call `client.SearchJQLWithParams`
is abstracted as `search : Int → Except String SearchResult`, a function of the
start offset (the JQL and the page size are fixed over a run). Matching the Go
multiple return `(core.PageResult[Issue], error)`, the result is a page plus an
optional error; the page is the zero value exactly when the error is set. -/
def fetcher (search : Int → Except String SearchResult) (cursor : String) :
    PageResult × Option String :=
  match parseStart cursor with
  | .error e => (zeroPage, some ("parse cursor: " ++ e))
  | .ok startAt =>
    match search startAt with
    | .error e => (zeroPage, some ("search jql: " ++ e))
    | .ok result =>
      let nextStartAt : Int := startAt + (result.issues.length : Int)
      let hasMore : Bool := decide (nextStartAt < result.total)
      let nextCursor : String := if hasMore then itoa nextStartAt else ""
      ({ items := result.issues, nextCursor := nextCursor,
         hasMore := hasMore }, none)

/-- Result of a bounded run of the pagination engine: the accumulated items,
the per-call trace (cursor passed, number of items the call returned) and the
final cursor. `err` is a run aborted by a fetch error; `outOfFuel` means the
given bound on the number of fetch calls did not suffice, i.e. the loop would
still be running. -/
inductive RunResult where
  | ok (items : List Issue) (calls : List (String × Nat)) (finalCursor : String)
  | err (msg : String) (calls : List (String × Nat))
  | outOfFuel (calls : List (String × Nat))
  deriving DecidableEq

/-- Modelled from the spec: the cursor pagination engine (`PaginateAll`,
spec section 4.1) that `core.PaginateWithConfig` supplies; the engine's code is
not among this repository's sources, only the fetcher closures it drives are.
Starting from a cursor it invokes the fetch function, appends the page's items
to the accumulator, and continues with `nextCursor` while `hasMore` holds;
otherwise it terminates with final cursor `""`. A fetch error aborts the run.
The `fuel` argument bounds the number of fetch calls so that the definition is
total: a run that is `outOfFuel` at every bound is a non-terminating run of the
engine. The call trace is recorded for specification purposes. -/
def paginateRun (fetch : String → PageResult × Option String) :
    Nat → String → RunResult
  | 0, _ => .outOfFuel []
  | fuel + 1, cursor =>
    match fetch cursor with
    | (_, some e) => .err e [(cursor, 0)]
    | (page, none) =>
      if page.hasMore then
        match paginateRun fetch fuel page.nextCursor with
        | .ok items calls fc =>
            .ok (page.items ++ items) ((cursor, page.items.length) :: calls) fc
        | .err e calls => .err e ((cursor, page.items.length) :: calls)
        | .outOfFuel calls => .outOfFuel ((cursor, page.items.length) :: calls)
      else .ok page.items [(cursor, page.items.length)] ""

/-- Discriminator for the out-of-fuel outcome of a run. -/
def RunResult.isOutOfFuel : RunResult → Bool
  | .outOfFuel _ => true
  | _ => false

/-- Hypothesis of the pagination termination property at one offset, as a
decidable check: the fetch at offset `o` succeeds, reports the fixed total `T`,
never overshoots the total, and returns a non-empty page until exhaustion. -/
def serverOKb (search : Int → Except String SearchResult) (T o : Nat) : Bool :=
  match search (o : Int) with
  | .error _ => false
  | .ok r =>
      decide (r.total = (T : Int)) &&
        decide ((o : Int) + (r.issues.length : Int) ≤ (T : Int)) &&
        (!(decide (o < T)) || !(r.issues.isEmpty))

/-- Total number of items over a call trace. -/
def sumLens (calls : List (String × Nat)) : Nat :=
  (calls.map (fun p => p.2)).sum

/-- Cursor discipline of a call trace that starts at offset `o` with cursor
`c`: the first call is issued with `c`, and every later call's cursor is the
decimal encoding of the running offset. -/
def cursorsFrom : Nat → String → List (String × Nat) → Prop
  | _, _, [] => True
  | o, c, p :: rest =>
      p.1 = c ∧ cursorsFrom (o + p.2) (itoa ((o + p.2 : Nat) : Int)) rest

/-- Sample author used by witnesses. -/
def alice : User := { displayName := "Alice", emailAddress := "", accountID := "" }

/-- Sample issue realizing the spec's comment-concatenation scenario: summary
`Bug`, description `Steps...`, one comment by Alice with body `Confirmed.`. -/
def scenarioIssue : Issue :=
  { id := "1", key := "PRJ-1", self := "https://example.invalid/PRJ-1",
    fields :=
      { summary := "Bug", description := "Steps...",
        status := { name := "Open", id := "1" },
        issueType := { name := "Bug", id := "10" },
        project := { key := "PRJ", name := "Project", id := "100" },
        created := "", updated := "2024-01-15T10:30:00.000+0000",
        labels := [], priority := none, assignee := none, reporter := none,
        comments := some
          { total := 1,
            comments := [{ id := "c1", body := "Confirmed.", author := alice,
                           created := "", updated := "" }] } } }

/-- Sample issue with an unparseable `updated` string and no optional fields. -/
def badTimeIssue : Issue :=
  { id := "2", key := "PRJ-2", self := "https://example.invalid/PRJ-2",
    fields :=
      { summary := "S", description := "",
        status := { name := "Open", id := "1" },
        issueType := { name := "Task", id := "3" },
        project := { key := "PRJ", name := "Project", id := "100" },
        created := "", updated := "not-a-timestamp",
        labels := [], priority := none, assignee := none, reporter := none,
        comments := none } }

/-- Sample server delivering 3 items in one page (spec scenario: total = 3,
a single fetch call returns all 3 items). -/
def search3 : Int → Except String SearchResult := fun o =>
  .ok { startAt := o, maxResults := 100, total := 3,
        issues := List.replicate (3 - o).toNat scenarioIssue }

/-- Sample server with total 5 delivered in pages of at most 2 items. -/
def searchB : Int → Except String SearchResult := fun o =>
  .ok { startAt := o, maxResults := 2, total := 5,
        issues := List.replicate (min 2 (5 - o).toNat) scenarioIssue }

/-- Degenerate server: every fetch succeeds with an empty page while reporting
total 5; this realizes a zero-item page with `total > offset`. -/
def zeroSearch : Int → Except String SearchResult := fun o =>
  .ok { startAt := o, maxResults := 100, total := 5, issues := [] }

theorem foldl_commentsText (l : List Comment) : ∀ init : String,
    l.foldl
      (fun acc comment =>
        acc ++ "\n\n[Comment by " ++ comment.author.displayName ++ "]: " ++
          comment.body)
      init = init ++ commentsText l := by
  induction l with
  | nil => intro init; simp [commentsText]
  | cons c rest ih =>
      intro init
      rw [List.foldl_cons, ih, commentsText]
      simp only [String.append_assoc]

theorem digitVal_ofNat_digit : ∀ r : Nat, r < 10 →
    digitVal (Char.ofNat (48 + r)) = r := by decide

theorem isDigit_ofNat_digit : ∀ r : Nat, r < 10 →
    (Char.ofNat (48 + r)).isDigit = true := by decide

theorem natDigitsAux_all_isDigit : ∀ (n : Nat) (acc : List Char),
    acc.all Char.isDigit = true → (natDigitsAux n acc).all Char.isDigit = true := by
  intro n
  induction n using Nat.strong_induction_on with
  | _ n ih =>
    match n with
    | 0 => intro acc h; rw [natDigitsAux]; exact h
    | m + 1 =>
      intro acc h
      rw [natDigitsAux]
      have hc : (Char.ofNat (48 + (m + 1) % 10)).isDigit = true :=
        isDigit_ofNat_digit ((m + 1) % 10) (by omega)
      exact ih ((m + 1) / 10) (Nat.div_lt_self (Nat.succ_pos m) (by omega)) _
        (by simp [List.all_cons, hc, h])

theorem natDigitsAux_length : ∀ (n : Nat) (acc : List Char),
    acc.length ≤ (natDigitsAux n acc).length := by
  intro n
  induction n using Nat.strong_induction_on with
  | _ n ih =>
    match n with
    | 0 => intro acc; rw [natDigitsAux]
    | m + 1 =>
      intro acc
      rw [natDigitsAux]
      have := ih ((m + 1) / 10) (Nat.div_lt_self (Nat.succ_pos m) (by omega))
        (Char.ofNat (48 + (m + 1) % 10) :: acc)
      simp only [List.length_cons] at this
      omega

theorem decVal_natDigitsAux : ∀ (n a : Nat) (acc : List Char),
    List.foldl (fun x c => x * 10 + digitVal c) a (natDigitsAux n acc) =
      List.foldl (fun x c => x * 10 + digitVal c) (a * 10 ^ numDigits n + n) acc := by
  intro n
  induction n using Nat.strong_induction_on with
  | _ n ih =>
    match n with
    | 0 => intro a acc; rw [natDigitsAux, numDigits]; simp
    | m + 1 =>
      intro a acc
      rw [natDigitsAux, numDigits]
      rw [ih ((m + 1) / 10) (Nat.div_lt_self (Nat.succ_pos m) (by omega))]
      rw [List.foldl_cons]
      have hd : digitVal (Char.ofNat (48 + (m + 1) % 10)) = (m + 1) % 10 :=
        digitVal_ofNat_digit ((m + 1) % 10) (by omega)
      congr 1
      rw [hd, pow_succ]
      have h10 : (m + 1) / 10 * 10 + (m + 1) % 10 = m + 1 := by omega
      calc (a * 10 ^ numDigits ((m + 1) / 10) + (m + 1) / 10) * 10 + (m + 1) % 10
          = a * (10 ^ numDigits ((m + 1) / 10) * 10) +
              ((m + 1) / 10 * 10 + (m + 1) % 10) := by ring
        _ = a * (10 ^ numDigits ((m + 1) / 10) * 10) + (m + 1) := by rw [h10]

theorem natToDecimal_ne_nil (m : Nat) : natToDecimal m ≠ [] := by
  unfold natToDecimal
  by_cases h : m = 0
  · simp [h]
  · rw [if_neg h]
    cases m with
    | zero => exact absurd rfl h
    | succ k =>
      intro hnil
      have hlen := natDigitsAux_length ((k + 1) / 10)
        (Char.ofNat (48 + (k + 1) % 10) :: [])
      rw [natDigitsAux] at hnil
      rw [hnil] at hlen
      simp at hlen

theorem decVal_natToDecimal (m : Nat) : decVal (natToDecimal m) = m := by
  unfold natToDecimal
  by_cases h : m = 0
  · subst h; rfl
  · rw [if_neg h]
    unfold decVal
    rw [decVal_natDigitsAux m 0 []]
    simp

theorem all_isDigit_natToDecimal (m : Nat) :
    (natToDecimal m).all Char.isDigit = true := by
  unfold natToDecimal
  by_cases h : m = 0
  · simp [h]
  · rw [if_neg h]
    exact natDigitsAux_all_isDigit m [] rfl

theorem digitsToNat?_natToDecimal (m : Nat) :
    digitsToNat? (natToDecimal m) = some m := by
  unfold digitsToNat?
  rw [if_pos ⟨natToDecimal_ne_nil m, all_isDigit_natToDecimal m⟩,
    decVal_natToDecimal]

theorem atoi_itoa_nat (m : Nat) : atoi (itoa (m : Int)) = .ok (m : Int) := by
  have hlt : ¬((m : Int) < 0) := by omega
  unfold itoa
  rw [if_neg hlt]
  have htn : ((m : Int)).toNat = m := rfl
  rw [htn]
  cases hnd : natToDecimal m with
  | nil => exact absurd hnd (natToDecimal_ne_nil m)
  | cons c rest =>
    have hall := all_isDigit_natToDecimal m
    rw [hnd, List.all_cons] at hall
    have hcd : c.isDigit = true := by simp at hall; exact hall.1
    have hcm : c ≠ '-' := by intro h; rw [h] at hcd; exact absurd hcd (by decide)
    have hcp : c ≠ '+' := by intro h; rw [h] at hcd; exact absurd hcd (by decide)
    unfold atoi
    dsimp only [String.toList]
    rw [if_neg hcm, if_neg hcp, ← hnd, digitsToNat?_natToDecimal]

theorem itoa_nat_ne_empty (m : Nat) : itoa (m : Int) ≠ ("") := by
  unfold itoa
  rw [if_neg (by omega : ¬((m : Int) < 0))]
  intro h
  exact natToDecimal_ne_nil m (congrArg String.data h)

theorem parseStart_empty : parseStart ("") = .ok 0 := rfl

theorem parseStart_itoa_nat (m : Nat) : parseStart (itoa (m : Int)) = .ok (m : Int) := by
  unfold parseStart
  rw [if_neg (itoa_nat_ne_empty m)]
  exact atoi_itoa_nat m

theorem serverOKb_ok {search : Int → Except String SearchResult} {T o : Nat}
    (h : serverOKb search T o = true) :
    ∃ r, search (o : Int) = .ok r ∧ r.total = (T : Int) ∧
      (o : Int) + (r.issues.length : Int) ≤ (T : Int) ∧
      (o < T → r.issues ≠ []) := by
  unfold serverOKb at h
  cases hs : search ((o : Nat) : Int) with
  | error e => rw [hs] at h; simp at h
  | ok r =>
    rw [hs] at h
    simp only [Bool.and_eq_true, Bool.or_eq_true, Bool.not_eq_true',
      decide_eq_true_eq, decide_eq_false_iff_not] at h
    refine ⟨r, rfl, h.1.1, h.1.2, ?_⟩
    intro hoT hnil
    rcases h.2 with h2 | h2
    · exact h2 hoT
    · rw [hnil] at h2; simp at h2

theorem paginate_loop (search : Int → Except String SearchResult) (T : Nat)
    (H : ∀ o : Nat, o ≤ T → serverOKb search T o = true) :
    ∀ (fuel o : Nat) (c : String), parseStart c = .ok ((o : Nat) : Int) →
      o ≤ T → T - o < fuel →
      ∃ items calls,
        paginateRun (fetcher search) fuel c = .ok items calls ("") ∧
          items.length = T - o ∧ sumLens calls = T - o ∧ cursorsFrom o c calls := by
  intro fuel
  induction fuel with
  | zero => intro o c hc ho hf; omega
  | succ n ih =>
    intro o c hc ho hf
    obtain ⟨r, hs, hTot, hLe, hNe⟩ := serverOKb_ok (H o ho)
    have hfetch : fetcher search c =
        ({ items := r.issues,
           nextCursor :=
             if decide ((o : Int) + (r.issues.length : Int) < r.total) = true then
               itoa ((o : Int) + (r.issues.length : Int))
             else "",
           hasMore := decide ((o : Int) + (r.issues.length : Int) < r.total) },
          none) := by
      simp only [fetcher, hc, hs]
    rw [hTot] at hfetch
    have hcast : (o : Int) + (r.issues.length : Int) =
        ((o + r.issues.length : Nat) : Int) := by omega
    rw [hcast] at hfetch
    by_cases hM : (((o + r.issues.length : Nat) : Int) < (T : Int))
    · -- more pages remain: the fetcher hands back the encoded next offset
      have hoT : o < T := by omega
      have hlen1 : 1 ≤ r.issues.length := by
        have hne := hNe hoT
        cases hi : r.issues with
        | nil => exact absurd hi hne
        | cons x xs => simp
      have ho2 : o + r.issues.length ≤ T := by omega
      have hf2 : T - (o + r.issues.length) < n := by omega
      obtain ⟨items2, calls2, hrun2, hlen2, hsum2, hcur2⟩ :=
        ih (o + r.issues.length) (itoa ((o + r.issues.length : Nat) : Int))
          (parseStart_itoa_nat (o + r.issues.length)) ho2 hf2
      refine ⟨r.issues ++ items2, (c, r.issues.length) :: calls2, ?_, ?_, ?_,
        ⟨rfl, hcur2⟩⟩
      · simp only [paginateRun, hfetch, decide_eq_true_eq, if_pos hM, hrun2]
      · rw [List.length_append, hlen2]; omega
      · simp only [sumLens, List.map_cons, List.sum_cons]
        simp only [sumLens] at hsum2
        omega
    · -- exhausted: the run ends here with the empty final cursor
      have hEq : o + r.issues.length = T := by omega
      refine ⟨r.issues, [(c, r.issues.length)], ?_, by omega, ?_, ⟨rfl, trivial⟩⟩
      · simp only [paginateRun, hfetch, decide_eq_true_eq, if_neg hM]
      · simp only [sumLens, List.map_cons, List.sum_cons, List.map_nil,
          List.sum_nil]
        omega

theorem cursorsFrom_getElem : ∀ (calls : List (String × Nat)) (o : Nat)
    (c : String), cursorsFrom o c calls → ∀ k (hk : k < calls.length),
      (calls[k]).1 =
        if k = 0 then c else itoa ((o + sumLens (calls.take k) : Nat) : Int) := by
  intro calls
  induction calls with
  | nil => intro o c h k hk; simp at hk
  | cons p rest ih =>
    intro o c h k hk
    obtain ⟨h1, h2⟩ := h
    cases k with
    | zero => simpa using h1
    | succ j =>
      have hj : j < rest.length := by simpa using hk
      have hrec := ih (o + p.2) (itoa ((o + p.2 : Nat) : Int)) h2 j hj
      rw [List.getElem_cons_succ, hrec]
      by_cases hj0 : j = 0
      · subst hj0
        simp [sumLens]
      · rw [if_neg hj0, if_neg (by omega : ¬(j + 1 = 0))]
        congr 2
        simp only [List.take_succ_cons, sumLens, List.map_cons, List.sum_cons]
        omega

/-- C1: for every sequence of pages whose item counts sum to the server
reported total, with each page non-empty until exhaustion, the full-dataset
pagination driven by the FetchAllIssues/SearchAllJQL fetcher terminates
(a bound of `total + 1` fetch calls suffices) and returns exactly `total`
accumulated items with the final cursor equal to the empty string. -/
theorem pagination_terminates_with_total
    (search : Int → Except String SearchResult) (T : Nat)
    (H : ∀ o : Nat, o ≤ T → serverOKb search T o = true) :
    ∃ items calls,
      paginateRun (fetcher search) (T + 1) ("") = .ok items calls ("") ∧
        items.length = T := by
  obtain ⟨items, calls, hrun, hlen, hsum, hcur⟩ :=
    paginate_loop search T H (T + 1) 0 ("")
      (by simpa using parseStart_empty) (Nat.zero_le T) (by omega)
  exact ⟨items, calls, hrun, by simpa using hlen⟩

/-- Witness for C1 at the concrete one-page server with total 3 (the spec's
single-page scenario: one fetch call returns all 3 items). -/
theorem pagination_terminates_with_total_witness :
    (∀ o : Nat, o ≤ 3 → serverOKb search3 3 o = true) ∧
      (∃ items calls,
        paginateRun (fetcher search3) (3 + 1) ("") = .ok items calls ("") ∧
          items.length = 3) :=
  ⟨by decide, pagination_terminates_with_total search3 3 (by decide)⟩

/-- C2: in every successful run of the pagination fetcher the cursor passed to
fetch call `k + 1` is the decimal encoding of the sum of the item counts of
fetch calls `1..k`; and call-wise, a call whose cursor parses to offset
`startAt` and whose search returns `r` yields next cursor
`Itoa (startAt + len r.issues)` together with `hasMore = true` when
`startAt + len r.issues < r.total`, and next cursor `""` with
`hasMore = false` otherwise. -/
theorem pagination_cursor_monotone
    (search : Int → Except String SearchResult) (T : Nat)
    (H : ∀ o : Nat, o ≤ T → serverOKb search T o = true) :
    (∃ items calls,
      paginateRun (fetcher search) (T + 1) ("") = .ok items calls ("") ∧
        ∀ k (hk : k + 1 < calls.length),
          (calls[k + 1]).1 = itoa ((sumLens (calls.take (k + 1)) : Nat) : Int)) ∧
    (∀ (cursor : String) (startAt : Int) (r : SearchResult),
      parseStart cursor = .ok startAt → search startAt = .ok r →
      fetcher search cursor =
        ({ items := r.issues,
           nextCursor :=
             if decide (startAt + (r.issues.length : Int) < r.total) = true then
               itoa (startAt + (r.issues.length : Int))
             else "",
           hasMore := decide (startAt + (r.issues.length : Int) < r.total) },
          none)) := by
  constructor
  · obtain ⟨items, calls, hrun, hlen, hsum, hcur⟩ :=
      paginate_loop search T H (T + 1) 0 ("")
        (by simpa using parseStart_empty) (Nat.zero_le T) (by omega)
    refine ⟨items, calls, hrun, ?_⟩
    intro k hk
    have := cursorsFrom_getElem calls 0 ("") hcur (k + 1) hk
    rw [this, if_neg (by omega : ¬(k + 1 = 0))]
    congr 2
    omega
  · intro cursor startAt r hps hsr
    simp only [fetcher, hps, hsr]

/-- Witness for C2 at the concrete server with total 5 and pages of at most 2
items: the run passes cursors `""`, `"2"`, `"4"`. -/
theorem pagination_cursor_monotone_witness :
    (∀ o : Nat, o ≤ 5 → serverOKb searchB 5 o = true) ∧
      ((∃ items calls,
        paginateRun (fetcher searchB) (5 + 1) ("") = .ok items calls ("") ∧
          ∀ k (hk : k + 1 < calls.length),
            (calls[k + 1]).1 =
              itoa ((sumLens (calls.take (k + 1)) : Nat) : Int)) ∧
      (∀ (cursor : String) (startAt : Int) (r : SearchResult),
        parseStart cursor = .ok startAt → searchB startAt = .ok r →
        fetcher searchB cursor =
          ({ items := r.issues,
             nextCursor :=
               if decide (startAt + (r.issues.length : Int) < r.total) = true then
                 itoa (startAt + (r.issues.length : Int))
               else "",
             hasMore := decide (startAt + (r.issues.length : Int) < r.total) },
            none))) :=
  ⟨by decide, pagination_cursor_monotone searchB 5 (by decide)⟩

/-- C3 (code bug): when the fetch returns a zero-item page while the server
still reports `total = 5 > 0 = offset`, the engine does NOT terminate. The
fetcher reports `hasMore = true` with next cursor `"0"`, the offset never
advances, and the run exhausts every fuel bound: the engine re-issues the fetch
at offset 0 forever, contradicting the claim that the run terminates. -/
theorem zero_item_page_never_terminates :
    fetcher zeroSearch ("") =
      ({ items := [], nextCursor := "0", hasMore := true }, none) ∧
    ∀ fuel : Nat,
      (paginateRun (fetcher zeroSearch) fuel ("")).isOutOfFuel = true := by
  have hstep : ∀ (fuel : Nat) (c : String), (c = ("") ∨ c = ("0")) →
      (paginateRun (fetcher zeroSearch) fuel c).isOutOfFuel = true := by
    intro fuel
    induction fuel with
    | zero => intro c hc; rfl
    | succ n ih =>
      intro c hc
      have hfetch : fetcher zeroSearch c =
          ({ items := [], nextCursor := "0", hasMore := true }, none) := by
        rcases hc with rfl | rfl <;> rfl
      have hrec := ih ("0") (Or.inr rfl)
      rw [paginateRun, hfetch]
      cases hr : paginateRun (fetcher zeroSearch) n ("0") with
      | ok items calls fc => rw [hr] at hrec; exact absurd hrec (by simp [RunResult.isOutOfFuel])
      | err e calls => rw [hr] at hrec; exact absurd hrec (by simp [RunResult.isOutOfFuel])
      | outOfFuel calls => simp [hr, RunResult.isOutOfFuel]
  exact ⟨rfl, fun fuel => hstep fuel ("") (Or.inl rfl)⟩

/-- C4: a non-empty cursor that does not parse as an integer makes the fetcher
return the zero-value page together with an error wrapped with the
`parse cursor` label, and the engine aborts the run on that error after this
single fetch call: the decode failure is terminal and is not retried. -/
theorem cursor_decode_failure_terminal
    (search : Int → Except String SearchResult) (cursor m : String)
    (hne : cursor ≠ ("")) (hfail : atoi cursor = .error m) :
    fetcher search cursor = (zeroPage, some ("parse cursor: " ++ m)) ∧
    ∀ fuel : Nat,
      paginateRun (fetcher search) (fuel + 1) cursor =
        .err ("parse cursor: " ++ m) [(cursor, 0)] := by
  have hps : parseStart cursor = .error m := by
    unfold parseStart
    rw [if_neg hne, hfail]
  have hf : fetcher search cursor = (zeroPage, some ("parse cursor: " ++ m)) := by
    simp only [fetcher, hps]
  refine ⟨hf, ?_⟩
  intro fuel
  rw [paginateRun, hf]

/-- Witness for C4 at the concrete non-numeric cursor `"abc"`. -/
theorem cursor_decode_failure_terminal_witness :
    (("abc" : String) ≠ ("") ∧
      atoi ("abc") =
        .error ("strconv.Atoi: parsing \"abc\": invalid syntax")) ∧
    (fetcher zeroSearch ("abc") =
        (zeroPage,
          some ("parse cursor: strconv.Atoi: parsing \"abc\": invalid syntax")) ∧
      ∀ fuel : Nat,
        paginateRun (fetcher zeroSearch) (fuel + 1) ("abc") =
          .err ("parse cursor: strconv.Atoi: parsing \"abc\": invalid syntax")
            [("abc", 0)]) :=
  ⟨⟨by decide, rfl⟩,
    cursor_decode_failure_terminal zeroSearch ("abc") _ (by decide) rfl⟩

/-- C5: the normalized document's content is the summary, then — only when the
description is non-empty — a blank line and the description, then one
`"\n\n[Comment by <author display name>]: <body>"` segment per comment in the
original order; the title is the summary verbatim; and the spec's concrete
scenario (summary `Bug`, description `Steps...`, one comment by Alice with body
`Confirmed.`) yields exactly the expected content. -/
theorem document_content_shape :
    (∀ issue : Issue,
      (issueToDocument issue).content =
        issue.fields.summary ++
          (if issue.fields.description = ("") then ""
            else "\n\n" ++ issue.fields.description) ++
          commentsText (commentList issue) ∧
      (issueToDocument issue).title = issue.fields.summary) ∧
    (issueToDocument scenarioIssue).content =
      "Bug\n\nSteps...\n\n[Comment by Alice]: Confirmed." := by
  constructor
  · intro issue
    constructor
    · unfold issueToDocument commentList
      cases hcm : issue.fields.comments with
      | none =>
        dsimp only
        by_cases hd : issue.fields.description = ("")
        · simp [hd, commentsText]
        · simp [hd, commentsText, String.append_assoc]
      | some cs =>
        dsimp only
        rw [foldl_commentsText]
        by_cases hd : issue.fields.description = ("")
        · simp [hd]
        · simp [hd, String.append_assoc]
    · rfl
  · rfl

/-- C6: the normalized document's metadata always binds `issue_key`, `project`,
`status` and `issue_type` from the corresponding record fields, and binds
`priority` (resp. `assignee`) exactly when the record carries that optional
field, taking its value from it; an absent optional field leaves the key
missing from the mapping rather than bound to an empty string. -/
theorem document_metadata_keys (issue : Issue) :
    lookupKey (issueToDocument issue).metadata ("issue_key") = some issue.key ∧
    lookupKey (issueToDocument issue).metadata ("project") =
      some issue.fields.project.key ∧
    lookupKey (issueToDocument issue).metadata ("status") =
      some issue.fields.status.name ∧
    lookupKey (issueToDocument issue).metadata ("issue_type") =
      some issue.fields.issueType.name ∧
    (lookupKey (issueToDocument issue).metadata ("priority")).isSome =
      issue.fields.priority.isSome ∧
    (∀ p, issue.fields.priority = some p →
      lookupKey (issueToDocument issue).metadata ("priority") = some p.name) ∧
    (lookupKey (issueToDocument issue).metadata ("assignee")).isSome =
      issue.fields.assignee.isSome ∧
    (∀ a, issue.fields.assignee = some a →
      lookupKey (issueToDocument issue).metadata ("assignee") =
        some a.displayName) := by
  obtain ⟨iid, key, slf, summary, desc, status, itype, project, created,
    updated, labels, prio, asg, rep, cmts⟩ := issue
  cases prio with
  | none =>
    cases asg with
    | none =>
      refine ⟨rfl, rfl, rfl, rfl, rfl, ?_, rfl, ?_⟩
      · intro p hp; exact Option.noConfusion hp
      · intro a ha; exact Option.noConfusion ha
    | some a0 =>
      refine ⟨rfl, rfl, rfl, rfl, rfl, ?_, rfl, ?_⟩
      · intro p hp; exact Option.noConfusion hp
      · intro a ha
        injection ha with h
        subst h
        rfl
  | some p0 =>
    cases asg with
    | none =>
      refine ⟨rfl, rfl, rfl, rfl, rfl, ?_, rfl, ?_⟩
      · intro p hp
        injection hp with h
        subst h
        rfl
      · intro a ha; exact Option.noConfusion ha
    | some a0 =>
      refine ⟨rfl, rfl, rfl, rfl, rfl, ?_, rfl, ?_⟩
      · intro p hp
        injection hp with h
        subst h
        rfl
      · intro a ha
        injection ha with h
        subst h
        rfl

/-- C7: a record whose raw `updated` string is absent, or unparseable against
the fixed timestamp layout, normalizes to a document whose `updatedAt` is the
zero value; normalization is a total function of the record, it never fails. -/
theorem updatedAt_degrades_to_zero (issue : Issue)
    (h : issue.fields.updated = ("") ∨
      parseGoTime issue.fields.updated = none) :
    (issueToDocument issue).updatedAt = Timestamp.zero := by
  unfold issueToDocument
  rcases h with h | h
  · simp [h]
  · by_cases he : issue.fields.updated = ("")
    · simp [he]
    · simp [he, h]

/-- Witness for C7 at the concrete record whose updated string is
`not-a-timestamp`. -/
theorem updatedAt_degrades_to_zero_witness :
    (badTimeIssue.fields.updated = ("") ∨
      parseGoTime badTimeIssue.fields.updated = none) ∧
      (issueToDocument badTimeIssue).updatedAt = Timestamp.zero :=
  ⟨Or.inr (by decide),
    updatedAt_degrades_to_zero badTimeIssue (Or.inr (by decide))⟩

/-- C8: a non-success HTTP response to a page fetch (`SearchJQLWithParams`) or
a single-record fetch (`GetIssue`) is surfaced as an error whose message
contains both the numeric status code and the response body text. -/
theorem api_error_contains_status_and_body (resp : HTTPResponse)
    (sdec : String → Except String SearchResult)
    (idec : String → Except String Issue) (h : resp.statusCode ≠ 200) :
    searchJQLWithParamsHandle resp sdec = .error (apiErrorMessage resp) ∧
    getIssueHandle resp idec = .error (apiErrorMessage resp) ∧
    containsStr (apiErrorMessage resp) (toString resp.statusCode) ∧
    containsStr (apiErrorMessage resp) resp.body := by
  refine ⟨?_, ?_, ?_, ?_⟩
  · unfold searchJQLWithParamsHandle
    rw [if_pos h]
  · unfold getIssueHandle
    rw [if_pos h]
  · refine ⟨"jira API error: status=", " body=" ++ resp.body, ?_⟩
    unfold apiErrorMessage
    simp [String.append_assoc]
  · refine ⟨"jira API error: status=" ++ toString resp.statusCode ++ " body=",
      "", ?_⟩
    unfold apiErrorMessage
    simp [String.append_assoc]

/-- Witness for C8: a 403 response with body `Forbidden` yields an error
message containing both `403` and `Forbidden`. -/
theorem api_error_contains_status_and_body_witness :
    ((403 : Nat) ≠ 200) ∧
    (searchJQLWithParamsHandle { statusCode := 403, body := "Forbidden" }
        (fun _ => .error ("")) =
        .error ("jira API error: status=403 body=Forbidden") ∧
      getIssueHandle { statusCode := 403, body := "Forbidden" }
        (fun _ => .error ("")) =
        .error ("jira API error: status=403 body=Forbidden") ∧
      containsStr ("jira API error: status=403 body=Forbidden") ("403") ∧
      containsStr ("jira API error: status=403 body=Forbidden") ("Forbidden")) :=
  ⟨by decide,
    api_error_contains_status_and_body { statusCode := 403, body := "Forbidden" }
      (fun _ => .error ("")) (fun _ => .error ("")) (by decide)⟩

/-- C9 counterexample: at the concrete not-found response (HTTP 404, as the
remote service answers for an identifier naming no record), the single-record
fetch returns an error — it does not report `found = false` without an error,
contradicting the claim as stated. -/
theorem fetchIssue_notFound_is_error :
    fetchIssueActivity { statusCode := 404, body := "Issue Does Not Exist" }
        (fun _ => .error ("")) =
      .error ("get issue: jira API error: status=404 body=Issue Does Not Exist") :=
  rfl

/-- C9 amended: `FetchIssueActivity` does return a found boolean alongside the
document and the error, but `found` is true on every successful fetch, and an
identifier naming no record yields a non-success response that is surfaced as a
wrapped error; `found = false` is never reported without an error. -/
theorem fetchIssue_found_semantics (resp : HTTPResponse)
    (decode : String → Except String Issue) :
    (∀ out, fetchIssueActivity resp decode = .ok out → out.found = true) ∧
    (resp.statusCode ≠ 200 →
      fetchIssueActivity resp decode =
        .error ("get issue: " ++ apiErrorMessage resp)) := by
  constructor
  · intro out hout
    unfold fetchIssueActivity at hout
    cases hg : getIssueHandle resp decode with
    | error e => rw [hg] at hout; exact Except.noConfusion hout
    | ok issue =>
      rw [hg] at hout
      injection hout with h
      rw [← h]
  · intro h
    unfold fetchIssueActivity getIssueHandle
    rw [if_pos h]

/-- Witness for C9 amended: a successful fetch reports `found = true`; a 404
response is surfaced as a wrapped error. -/
theorem fetchIssue_found_semantics_witness :
    (fetchIssueActivity { statusCode := 200, body := "ok" }
        (fun _ => .ok scenarioIssue) =
        .ok { document := issueToDocument scenarioIssue, found := true } ∧
      ({ document := issueToDocument scenarioIssue, found := true } :
        FetchIssueOutput).found = true) ∧
    fetchIssueActivity { statusCode := 404, body := "nf" }
        (fun _ => .error ("")) =
      .error ("get issue: jira API error: status=404 body=nf") :=
  ⟨⟨rfl,
    (fetchIssue_found_semantics { statusCode := 200, body := "ok" }
      (fun _ => .ok scenarioIssue)).1 _ rfl⟩,
    (fetchIssue_found_semantics { statusCode := 404, body := "nf" }
      (fun _ => .error (""))).2 (by decide)⟩

/-- C10: a record whose comments container is absent (Go `nil`) still
normalizes — the content is the summary plus, when non-empty, the description,
with no comment segments appended. -/
theorem nil_comments_safe (issue : Issue)
    (h : issue.fields.comments = none) :
    (issueToDocument issue).content =
      issue.fields.summary ++
        (if issue.fields.description = ("") then ""
          else "\n\n" ++ issue.fields.description) := by
  unfold issueToDocument
  by_cases hd : issue.fields.description = ("")
  · simp [h, hd]
  · simp [h, hd, String.append_assoc]

/-- Witness for C10 at a concrete record without a comments container. -/
theorem nil_comments_safe_witness :
    badTimeIssue.fields.comments = none ∧
      (issueToDocument badTimeIssue).content =
        badTimeIssue.fields.summary ++
          (if badTimeIssue.fields.description = ("") then ""
            else "\n\n" ++ badTimeIssue.fields.description) :=
  ⟨rfl, nil_comments_safe badTimeIssue rfl⟩

end ResoluteJira
